import Mathlib

/-!
Verification of the session layer of `proxmox-api-go` (`proxmox/session.go`)
against its natural-language specification.

The Go code is shallowly embedded: `http.Header` and `url.Values` (Go maps)
become association lists over `String` observed only through `mapLookup`;
map assignment becomes `mapSet`; strings are Lean strings (sequences of
unicode scalar values, matching Go's `for _, r := range s` rune iteration);
fallible code returns `Option`/`Except`; and the runtime panics reachable in
`Login` (unchecked type assertions) are made explicit as a `panicked` outcome.
JSON documents are modelled by the inductive `JValue`; JSON numbers are kept
as integers, which is faithful for every value these claims touch (the only
numeric comparison in the source is `dat["NeedTFA"] == 1.0`).
-/

set_option autoImplicit false

namespace Proxmox

/-! ## Definitions -/

/-- A Go `map[string]V` (e.g. `http.Header`, `url.Values`, decoded JSON
objects) as an association list, observed only through `mapLookup`; keys are
unique in lists coming from Go maps. -/
def mapLookup {α : Type} (m : List (String × α)) (k : String) : Option α :=
  (m.find? (fun kv => kv.1 == k)).map (fun kv => kv.2)

/-- Go map assignment `m[k] = v`: replace any binding of `k`, add the new one. -/
def mapSet {α : Type} (m : List (String × α)) (k : String) (v : α) : List (String × α) :=
  (k, v) :: m.filter (fun kv => kv.1 != k)

/-- `http.Header`: header name to ordered list of values. -/
abbrev Header := List (String × List String)

/-- One hexadecimal digit as Go's `%q` prints it (lowercase). -/
def hexDigit (n : Nat) : Char :=
  "0123456789abcdef".data.getD n '0'

/-- How Go's `%q` verb renders one rune inside a quoted string: quote and
backslash are backslash-escaped, the named control escapes are used where they
exist, other control characters and DEL become `\xNN`, and everything else is
written verbatim.  (Go also `\u`-escapes unprintable runes above 127; those are
rendered verbatim here, which is immaterial to the properties proved, since
they concern control characters and ASCII keys, and such runes are neither.) -/
def goQuoteChar (c : Char) : List Char :=
  if c = '"' then ['\\', '"']
  else if c = '\\' then ['\\', '\\']
  else if c.toNat = 7 then ['\\', 'a']
  else if c.toNat = 8 then ['\\', 'b']
  else if c.toNat = 9 then ['\\', 't']
  else if c.toNat = 10 then ['\\', 'n']
  else if c.toNat = 11 then ['\\', 'v']
  else if c.toNat = 12 then ['\\', 'f']
  else if c.toNat = 13 then ['\\', 'r']
  else if c.toNat < 32 ∨ c.toNat = 127 then
    ['\\', 'x', hexDigit (c.toNat / 16), hexDigit (c.toNat % 16)]
  else [c]

/-- Go's `%q`: the string between double quotes with every rune escaped as in
`goQuoteChar`. -/
def goQuote (s : String) : String :=
  ⟨'"' :: (s.data.map goQuoteChar).flatten ++ ['"']⟩

/-- `session.go:58-61` inner loop: does a header value contain a rune that is a
control character (0-31) or DEL (127)? -/
def hasInvalidChar (v : String) : Bool :=
  v.data.any (fun c => decide (c.toNat < 32) || decide (c.toNat = 127))

/-- `validateHeader` (`session.go:55-66`): scan keys in order, and for the
first key with an offending value return the sanitized error message built by
`fmt.Errorf("value for key %q contains invalid characters", key)`; `none`
means the header passed validation. -/
def validateHeader : Header → Option String
  | [] => none
  | kv :: rest =>
    if kv.2.any hasInvalidChar then
      some ("value for key " ++ goQuote kv.1 ++ " contains invalid characters")
    else validateHeader rest

/-- The `Session` fields the verified operations read and write.  `httpClient`
and `ApiUrl` are carried separately where needed (`roundTrip`, `LoginModel`),
and `Headers` is the session's default header map merged by `Do`. -/
structure Session where
  AuthTicket : String
  CsrfToken : String
  AuthToken : String
  Headers : Header
deriving DecidableEq

/-- `NewRequest` (`session.go:228-243`), restricted to the header map of the
request it builds: start from the caller's headers (`req.Header = *headers`
when non-nil, otherwise the fresh request's empty header map), then attach
auth headers by Go map assignment: a static token wins, else a ticket brings
the CSRF header, else nothing is added. -/
def newRequestHeader (s : Session) (headers : Option Header) : Header :=
  let h := match headers with
    | some hs => hs
    | none => []
  if s.AuthToken != "" then
    mapSet h "Authorization" ["PVEAPIToken=" ++ s.AuthToken]
  else if s.AuthTicket != "" then
    mapSet (mapSet h "Authorization" ["PVEAuthCookie=" ++ s.AuthTicket])
      "CSRFPreventionToken" [s.CsrfToken]
  else h

/-- `Do` (`session.go:245-249`): the session's default headers are written
into the request header map after the caller's, one Go map assignment each. -/
def addSessionHeaders (reqH sessH : Header) : Header :=
  sessH.foldl (fun acc kv => mapSet acc kv.1 kv.2) reqH

/-- The closed set of dynamic parameter values the encoder receives (the
source uses `interface{}` with a type switch distinguishing `bool` from
everything else; the spec asks for a closed variant set). -/
inductive ParamValue where
  | bool (b : Bool)
  | str (s : String)
  | int (n : Int)
deriving DecidableEq

/-- The value's encoded string: Go's `switch` maps `true`/`false` to
`"1"`/`"0"` and everything else through `fmt.Sprintf("%v", v)`. -/
def paramString : ParamValue → String
  | .bool true => "1"
  | .bool false => "0"
  | .str s => s
  | .int n => toString n

/-- Modelled from the spec: the `inArray` helper called at `session.go:147` is
defined outside the provided sources; per the spec it decides whether the key
is "explicitly allow-listed" among the keys permitted to stay when empty. -/
def inArray (xs : List String) (k : String) : Bool :=
  xs.contains k

/-- `ParamsToValuesWithAllEmpty` (`session.go:130-152`): fold the parameter
map into a `url.Values`, keeping a key when `allowEmpty` is set, and otherwise
exactly when its encoded value is non-empty or the key is allow-listed. -/
def ParamsToValuesWithAllEmpty (params : List (String × ParamValue))
    (allowedEmpty : List String) (allowEmpty : Bool) : List (String × String) :=
  params.foldl
    (fun vals kv =>
      let v := paramString kv.2
      if allowEmpty then mapSet vals kv.1 v
      else if v != "" || inArray allowedEmpty kv.1 then mapSet vals kv.1 v
      else vals)
    []

/-- `ParamsToValuesWithEmpty` (`session.go:126-128`). -/
def ParamsToValuesWithEmpty (params : List (String × ParamValue))
    (allowedEmpty : List String) : List (String × String) :=
  ParamsToValuesWithAllEmpty params allowedEmpty false

/-- `ParamsToValues` (`session.go:109-112`). -/
def ParamsToValues (params : List (String × ParamValue)) : List (String × String) :=
  ParamsToValuesWithEmpty params []

/-- Reference encoder written from the claim's words, to compare with the
source's fold: encode every value (booleans to `"1"`/`"0"`, the rest to their
default string form), keep every key in allow-all-empty mode, and in the
default mode keep exactly the keys whose encoded value is non-empty or which
are in the allow-list. -/
def specParamsEncode (params : List (String × ParamValue))
    (allowedEmpty : List String) (allowEmpty : Bool) : List (String × String) :=
  (params.filter
      (fun kv => allowEmpty || (paramString kv.2 != "" || allowedEmpty.contains kv.1))).map
    (fun kv => (kv.1, paramString kv.2))

/-- A JSON document as Go's `encoding/json` decodes it (numbers as integers;
see the file comment). -/
inductive JValue where
  | null
  | bool (b : Bool)
  | num (n : Int)
  | str (s : String)
  | arr (elems : List JValue)
  | obj (fields : List (String × JValue))

/-- Go's `dat["NeedTFA"] == 1.0` on the dynamic value looked up in a decoded
JSON object: true exactly when the entry exists and is the number 1. -/
def isNumOne : Option JValue → Bool
  | some (JValue.num n) => n == 1
  | _ => false

/-- What `ResponseJSON` can see of a response body: no body at all, a body
that does not decode into a JSON object map, a body decoding to a nil map
(JSON `null`), or a JSON object. -/
inductive RespBodyM where
  | noBody
  | invalid
  | jsonNull
  | obj (fields : List (String × JValue))

/-- `ResponseJSON`/`decodeResponse` (`session.go:154-171`) decoding into
`map[string]interface{}`: a missing body is a silent no-op leaving the map
nil, undecodable bodies are errors, JSON `null` leaves the map nil, and an
object yields its fields. -/
def responseJSONM : RespBodyM → Except String (Option (List (String × JValue)))
  | RespBodyM.noBody => Except.ok none
  | RespBodyM.invalid => Except.error "invalid character in JSON body"
  | RespBodyM.jsonNull => Except.ok none
  | RespBodyM.obj fields => Except.ok (some fields)

/-- How one `Login` call can end. `panicked` is a Go runtime panic from an
unchecked type assertion (`jbody["data"].(map[string]interface{})`,
`dat["ticket"].(string)`, `dat["CSRFPreventionToken"].(string)`). -/
inductive LoginOutcome where
  | ok
  | err (msg : String)
  | panicked
deriving DecidableEq

/-- What `s.Post("/access/ticket", ...)` returned to `Login`: a transport
error, a nil response, or a response with a body. -/
inductive PostResult where
  | transportErr (msg : String)
  | nilResp
  | resp (body : RespBodyM)

/-- `Login` lines 207-225, the processing of the `Post` response: the nil
checks return errors, `dat := jbody["data"].(map[string]interface{})` panics
when `data` is neither absent, `null`, nor an object, the `NeedTFA` sentinel
is checked, and then `s.AuthTicket = dat["ticket"].(string)` followed by
`s.CsrfToken = dat["CSRFPreventionToken"].(string)` each panic when the field
is missing or not a string — with `AuthTicket` already written in the second
case. -/
def loginProcess (s : Session) (body : RespBodyM) : Session × LoginOutcome :=
  match responseJSONM body with
  | Except.error e => (s, LoginOutcome.err e)
  | Except.ok none => (s, LoginOutcome.err "invalid login response")
  | Except.ok (some jfields) =>
    match mapLookup jfields "data" with
    | none => (s, LoginOutcome.err "invalid login response")
    | some JValue.null => (s, LoginOutcome.err "invalid login response")
    | some (JValue.obj dat) =>
      if isNumOne (mapLookup dat "NeedTFA") then (s, LoginOutcome.err "missing TFA code")
      else
        match mapLookup dat "ticket" with
        | some (JValue.str t) =>
          match mapLookup dat "CSRFPreventionToken" with
          | some (JValue.str c) =>
            ({ s with AuthTicket := t, CsrfToken := c }, LoginOutcome.ok)
          | _ => ({ s with AuthTicket := t }, LoginOutcome.panicked)
        | _ => (s, LoginOutcome.panicked)
    | some _ => (s, LoginOutcome.panicked)

/-- One `Login` call as observed from outside: the value of the process-wide
`Debug` flag while the credential-bearing `Post` runs, its value at the point
`Login` ends (by return or by panic), the session afterwards, and the
outcome. -/
structure LoginRun where
  debugDuringPost : Bool
  debugFinal : Bool
  sessionAfter : Session
  outcome : LoginOutcome
deriving DecidableEq

/-- `Login` (`session.go:194-226`): `olddebug := *Debug`, `*Debug = false`,
`Post`, `*Debug = olddebug` — the restore precedes every return path and the
reachable panics — then the response processing of `loginProcess`. -/
def LoginModel (debug0 : Bool) (s : Session) (pr : PostResult) : LoginRun :=
  let olddebug := debug0
  let debugDuringPost := false
  let debugAfterRestore := olddebug
  match pr with
  | PostResult.transportErr m =>
    ⟨debugDuringPost, debugAfterRestore, s, LoginOutcome.err m⟩
  | PostResult.nilResp =>
    ⟨debugDuringPost, debugAfterRestore, s, LoginOutcome.err "Login error reading response"⟩
  | PostResult.resp body =>
    ⟨debugDuringPost, debugAfterRestore, (loginProcess s body).1, (loginProcess s body).2⟩

/-- The two failure classes of `TypedResponse` (`session.go:173-187`): the
wrap `"error reading response envelope: %v"` around `decodeResponse` failures,
and the wrap `"error unmarshalling result %v"` around the inner unmarshal. -/
inductive DecodeErr where
  | envelope (msg : String)
  | result (msg : String)
deriving DecidableEq

/-- Is a `TypedResponse` outcome the envelope-shape error? -/
def isEnvelopeErr {α : Type} : Except DecodeErr α → Bool
  | Except.error (DecodeErr.envelope _) => true
  | _ => false

/-- `json.Unmarshal` of the body into `TypedResponse`'s intermediate struct
`{Data struct {Result json.RawMessage}}`: a body that is not a JSON object
(other than `null`) or whose `data` member is neither an object nor `null`
fails; otherwise `Result` holds the raw `data.result` subtree, and stays nil
(`none`) when `data` or `result` is absent or `data` is `null`.  The input
`none` stands for a body that is not valid JSON at all. -/
def envelopeResult (body : Option JValue) : Except String (Option JValue) :=
  match body with
  | none => Except.error "invalid character in JSON body"
  | some (JValue.obj fields) =>
    match mapLookup fields "data" with
    | none => Except.ok none
    | some JValue.null => Except.ok none
    | some (JValue.obj dfields) =>
      match mapLookup dfields "result" with
      | none => Except.ok none
      | some r => Except.ok (some r)
    | some _ => Except.error "json: cannot unmarshal value into Go struct field"
  | some JValue.null => Except.ok none
  | some _ => Except.error "json: cannot unmarshal value into Go struct"

/-- `json.Unmarshal` of the `result` subtree into the destination of the
spec's example, a struct shaped `{X int}` bound to JSON key `x`: a number
fills the field, an absent member or `null` leaves the zero value, and any
other shape is a type error. -/
def decodeXField : JValue → Except String Int
  | JValue.obj fields =>
    match mapLookup fields "x" with
    | some (JValue.num n) => Except.ok n
    | some JValue.null => Except.ok 0
    | some _ => Except.error "json: cannot unmarshal value into Go struct field of type int"
    | none => Except.ok 0
  | JValue.null => Except.ok 0
  | _ => Except.error "json: cannot unmarshal value into Go struct of type int"

/-- `TypedResponse` (`session.go:173-187`) against the `{X int}` destination:
envelope extraction wrapped as the envelope error, then
`json.Unmarshal(intermediate.Data.Result, v)` — which on a nil `Result` fails
with `"unexpected end of JSON input"` — wrapped as the result error. -/
def TypedResponseX (body : Option JValue) : Except DecodeErr Int :=
  match envelopeResult body with
  | Except.error e => Except.error (DecodeErr.envelope ("error reading response envelope: " ++ e))
  | Except.ok none =>
    Except.error (DecodeErr.result ("error unmarshalling result " ++ "unexpected end of JSON input"))
  | Except.ok (some r) =>
    match decodeXField r with
    | Except.error e => Except.error (DecodeErr.result ("error unmarshalling result " ++ e))
    | Except.ok n => Except.ok n

/-- The response body `Do` hands back: `io.NopCloser(bytes.NewReader(buf))` —
an in-memory buffer and a read position, holding no connection. -/
structure BufferedBody where
  buf : List Nat
  pos : Nat
deriving DecidableEq

/-- `io.ReadAll` on a `bytes.Reader`: return everything from the current
position to the end and leave the reader at EOF.  A pure function of the
buffer — no network is involved. -/
def bodyReadAll (b : BufferedBody) : List Nat × BufferedBody :=
  (b.buf.drop b.pos, ⟨b.buf, b.buf.length⟩)

/-- What `Do` (`session.go:261-270`) does to the body: one full read of the
live network stream (`networkReads = 1` is the only wire access ever made for
this body), `resp.Body.Close()`, then the replacement buffered body at
position 0. -/
structure DoBodyResult where
  networkReads : Nat
  body : BufferedBody
deriving DecidableEq

def doBufferBody (wire : List Nat) : DoBodyResult :=
  ⟨1, ⟨wire, 0⟩⟩

/-- The http client a `Session` ends up with (`NewSession`,
`session.go:68-101`): when the caller passes no client, `NewSession` builds
one whose transport is `secureTransport` wrapping the real transport; a
caller-supplied client is stored and used exactly as given, with no wrapping. -/
inductive GoHttpClient where
  | secureDefault
  | custom
deriving DecidableEq

def newSessionClient (hclient : Option GoHttpClient) : GoHttpClient :=
  match hclient with
  | some c => c
  | none => GoHttpClient.secureDefault

/-- What one dispatch through the session's client does: whether the request
reached the underlying network transport, and the error this layer returned. -/
structure DispatchResult where
  sentToUnderlying : Bool
  errMsg : Option String
deriving DecidableEq

/-- `secureTransport.RoundTrip` (`session.go:43-48`) for the `NewSession`-built
client: validate the header first and return the wrapped sanitized error
instead of dispatching; a caller-supplied client has whatever transport the
caller chose, so this layer performs no validation and the request goes
straight to it. -/
def roundTrip (c : GoHttpClient) (h : Header) : DispatchResult :=
  match c with
  | GoHttpClient.secureDefault =>
    match validateHeader h with
    | some e => ⟨false, some ("invalid header: " ++ e)⟩
    | none => ⟨true, none⟩
  | GoHttpClient.custom => ⟨true, none⟩

/-! ## Supporting lemmas -/

theorem mapLookup_mapSet_self {α : Type} (m : List (String × α)) (k : String) (v : α) :
    mapLookup (mapSet m k v) k = some v := by
  simp [mapLookup, mapSet, List.find?]

theorem find?_filter_ne {α : Type} (m : List (String × α)) (k k2 : String) (hne : k2 ≠ k) :
    ((m.filter (fun kv => kv.1 != k)).find? (fun kv => kv.1 == k2)) =
      m.find? (fun kv => kv.1 == k2) := by
  induction m with
  | nil => rfl
  | cons a t ih =>
    by_cases h : a.1 = k
    · simp [List.filter_cons, List.find?_cons, h,
        beq_false_of_ne (fun e => hne e.symm), ih]
    · by_cases h3 : a.1 = k2
      · simp [List.filter_cons, List.find?_cons, h, h3, hne]
      · simp [List.filter_cons, List.find?_cons, h, h3, ih]

theorem mapLookup_mapSet_other {α : Type} (m : List (String × α)) (k k2 : String) (v : α)
    (hne : k2 ≠ k) : mapLookup (mapSet m k v) k2 = mapLookup m k2 := by
  have hk : (k == k2) = false := by
    simp
    exact fun e => hne e.symm
  simp [mapLookup, mapSet, List.find?_cons, hk, find?_filter_ne m k k2 hne]

/-- A character Go's quoting may emit is never a control character or DEL. -/
theorem hexDigit_clean (n : Nat) : 32 ≤ (hexDigit n).toNat ∧ (hexDigit n).toNat ≠ 127 := by
  by_cases h : n < 16
  · unfold hexDigit
    interval_cases n <;> decide
  · have hlen : "0123456789abcdef".data.length ≤ n := by
      have : "0123456789abcdef".data.length = 16 := by decide
      omega
    unfold hexDigit
    rw [List.getD_eq_default _ _ hlen]
    decide

theorem goQuoteChar_clean (c : Char) :
    ∀ d ∈ goQuoteChar c, 32 ≤ d.toNat ∧ d.toNat ≠ 127 := by
  intro d hd
  unfold goQuoteChar at hd
  by_cases h1 : c = '"'
  · rw [if_pos h1] at hd; fin_cases hd <;> decide
  rw [if_neg h1] at hd
  by_cases h2 : c = '\\'
  · rw [if_pos h2] at hd; fin_cases hd <;> decide
  rw [if_neg h2] at hd
  by_cases h3 : c.toNat = 7
  · rw [if_pos h3] at hd; fin_cases hd <;> decide
  rw [if_neg h3] at hd
  by_cases h4 : c.toNat = 8
  · rw [if_pos h4] at hd; fin_cases hd <;> decide
  rw [if_neg h4] at hd
  by_cases h5 : c.toNat = 9
  · rw [if_pos h5] at hd; fin_cases hd <;> decide
  rw [if_neg h5] at hd
  by_cases h6 : c.toNat = 10
  · rw [if_pos h6] at hd; fin_cases hd <;> decide
  rw [if_neg h6] at hd
  by_cases h7 : c.toNat = 11
  · rw [if_pos h7] at hd; fin_cases hd <;> decide
  rw [if_neg h7] at hd
  by_cases h8 : c.toNat = 12
  · rw [if_pos h8] at hd; fin_cases hd <;> decide
  rw [if_neg h8] at hd
  by_cases h9 : c.toNat = 13
  · rw [if_pos h9] at hd; fin_cases hd <;> decide
  rw [if_neg h9] at hd
  by_cases h10 : c.toNat < 32 ∨ c.toNat = 127
  · rw [if_pos h10] at hd
    fin_cases hd <;> first | decide | exact hexDigit_clean _
  · rw [if_neg h10] at hd
    fin_cases hd
    omega

theorem msgPrefix_clean : ∀ d ∈ "value for key ".data, 32 ≤ d.toNat ∧ d.toNat ≠ 127 := by
  decide

theorem msgSuffix_clean :
    ∀ d ∈ " contains invalid characters".data, 32 ≤ d.toNat ∧ d.toNat ≠ 127 := by
  decide

/-- Every character of the sanitized error message is outside the control
range: the fixed text is printable ASCII and the key is `%q`-escaped. -/
theorem validateHeader_msg_clean (k : String) :
    ∀ d ∈ ("value for key " ++ goQuote k ++ " contains invalid characters").data,
      32 ≤ d.toNat ∧ d.toNat ≠ 127 := by
  intro d hd
  rw [String.data_append, String.data_append] at hd
  rcases List.mem_append.mp hd with hd | hd
  · rcases List.mem_append.mp hd with hd | hd
    · exact msgPrefix_clean d hd
    · unfold goQuote at hd
      simp only [String.data] at hd
      rcases List.mem_cons.mp hd with h | h
      · rw [h]; decide
      · rcases List.mem_append.mp h with h | h
        · rcases List.mem_flatten.mp h with ⟨l, hl, hdl⟩
          rcases List.mem_map.mp hl with ⟨c, _, hcl⟩
          exact goQuoteChar_clean c d (hcl ▸ hdl)
        · rcases List.mem_singleton.mp h with h
          rw [h]; decide
  · exact msgSuffix_clean d hd

theorem hasInvalidChar_eq_true_iff (v : String) :
    hasInvalidChar v = true ↔ ∃ c ∈ v.data, c.toNat < 32 ∨ c.toNat = 127 := by
  rw [hasInvalidChar, List.any_eq_true]
  constructor
  · rintro ⟨c, hc, hcb⟩
    simp only [Bool.or_eq_true, decide_eq_true_eq] at hcb
    exact ⟨c, hc, hcb⟩
  · rintro ⟨c, hc, hor⟩
    refine ⟨c, hc, ?_⟩
    simp only [Bool.or_eq_true, decide_eq_true_eq]
    exact hor

theorem validateHeader_eq_none_iff (h : Header) :
    validateHeader h = none ↔ ∀ kv ∈ h, ∀ v ∈ kv.2, hasInvalidChar v = false := by
  induction h with
  | nil => simp [validateHeader]
  | cons kv rest ih =>
    unfold validateHeader
    by_cases hb : kv.2.any hasInvalidChar
    · rw [if_pos hb]
      rcases List.any_eq_true.mp hb with ⟨v, hv, hbad⟩
      constructor
      · intro he
        exact Option.noConfusion he
      · intro hall
        have := hall kv (List.mem_cons_self kv rest) v hv
        rw [hbad] at this
        exact Bool.noConfusion this
    · rw [if_neg hb, ih]
      have hhead : ∀ v ∈ kv.2, hasInvalidChar v = false := by
        intro v hv
        by_contra hvc
        exact hb (List.any_eq_true.mpr ⟨v, hv, by
          revert hvc
          cases hasInvalidChar v <;> simp⟩)
      constructor
      · intro hall kv2 hkv2
        rcases List.mem_cons.mp hkv2 with he | hm
        · subst he
          exact hhead
        · exact hall kv2 hm
      · intro hall kv2 hm
        exact hall kv2 (List.mem_cons_of_mem _ hm)

/-- The validation verdict in terms of raw code points: success exactly when
every value of every key is free of control characters and DEL. -/
theorem validateHeader_none_iff_clean (h : Header) :
    validateHeader h = none ↔
      ∀ kv ∈ h, ∀ v ∈ kv.2, ∀ c ∈ v.data, 32 ≤ c.toNat ∧ c.toNat ≠ 127 := by
  rw [validateHeader_eq_none_iff]
  constructor
  · intro hall kv hkv v hv c hc
    have hvf := hall kv hkv v hv
    by_contra hcon
    have : hasInvalidChar v = true :=
      (hasInvalidChar_eq_true_iff v).mpr ⟨c, hc, by omega⟩
    rw [hvf] at this
    exact Bool.noConfusion this
  · intro hall kv hkv v hv
    by_contra hvf
    have hvt : hasInvalidChar v = true := by
      revert hvf
      cases hasInvalidChar v <;> simp
    rcases (hasInvalidChar_eq_true_iff v).mp hvt with ⟨c, hc, hor⟩
    have := hall kv hkv v hv c hc
    omega

theorem validateHeader_eq_some (h : Header) (m : String) (hm : validateHeader h = some m) :
    ∃ kv ∈ h, (∃ v ∈ kv.2, hasInvalidChar v = true) ∧
      m = "value for key " ++ goQuote kv.1 ++ " contains invalid characters" := by
  induction h with
  | nil => exact Option.noConfusion hm
  | cons kv rest ih =>
    unfold validateHeader at hm
    by_cases hb : kv.2.any hasInvalidChar
    · rw [if_pos hb] at hm
      cases Option.some.inj hm
      exact ⟨kv, List.mem_cons_self kv rest, List.any_eq_true.mp hb, rfl⟩
    · rw [if_neg hb] at hm
      rcases ih hm with ⟨kv2, hmem, hrest⟩
      exact ⟨kv2, List.mem_cons_of_mem _ hmem, hrest⟩

theorem mapLookup_cons_ne {α : Type} (kv : String × α) (t : List (String × α)) (k : String)
    (h : kv.1 ≠ k) : mapLookup (kv :: t) k = mapLookup t k := by
  simp [mapLookup, List.find?_cons, beq_false_of_ne h]

theorem mapLookup_eq_none_of_not_mem {α : Type} (m : List (String × α)) (k : String)
    (hk : k ∉ m.map Prod.fst) : mapLookup m k = none := by
  rw [mapLookup, List.find?_eq_none.mpr]
  · rfl
  · intro kv hkv
    simp only [beq_iff_eq]
    intro he
    exact hk (he ▸ List.mem_map_of_mem Prod.fst hkv)

theorem addSessionHeaders_cons (reqH : Header) (kv : String × List String) (t : Header) :
    addSessionHeaders reqH (kv :: t) = addSessionHeaders (mapSet reqH kv.1 kv.2) t := rfl

/-- Looking a key up after `Do`'s merge: the session's own binding when the
session default headers bind the key, the request's binding otherwise. -/
theorem mapLookup_addSessionHeaders (sessH : Header) :
    ∀ (reqH : Header) (k : String), (sessH.map Prod.fst).Nodup →
      mapLookup (addSessionHeaders reqH sessH) k =
        (mapLookup sessH k).or (mapLookup reqH k) := by
  induction sessH with
  | nil =>
    intro reqH k _
    simp [addSessionHeaders, mapLookup, Option.or]
  | cons kv t ih =>
    intro reqH k hnd
    have hnotin : kv.1 ∉ t.map Prod.fst := (List.nodup_cons.mp hnd).1
    have hnd2 : (t.map Prod.fst).Nodup := (List.nodup_cons.mp hnd).2
    rw [addSessionHeaders_cons, ih (mapSet reqH kv.1 kv.2) k hnd2]
    by_cases hk : k = kv.1
    · subst hk
      rw [mapLookup_eq_none_of_not_mem t _ hnotin, mapLookup_mapSet_self]
      have hhead : mapLookup (kv :: t) kv.1 = some kv.2 := by
        simp [mapLookup, List.find?_cons]
      rw [hhead]
      rfl
    · rw [mapLookup_mapSet_other reqH kv.1 k kv.2 hk,
        mapLookup_cons_ne kv t k (fun e => hk e.symm)]

/-! ## Claims -/

/-- Claim C2, counterexample: header validation does fail on a value with a
control character, but for the key `a"b` the sanitized message holds the
`%q`-escaped form `a\"b`, so the message does not contain the offending
header's key as a substring — the claim's "the error message contains the
offending header's key" is false at this input. -/
theorem claim_C2_counterexample :
    validateHeader [("a\"b", ["\x00"])] =
      some "value for key \"a\\\"b\" contains invalid characters" ∧
    ¬ (("a\"b").data <:+:
        ("value for key \"a\\\"b\" contains invalid characters").data) := by
  constructor
  · rfl
  · decide

/-- Claim C2 (amended): header validation fails if and only if some value
contains a code point in [0,31] or equal to 127; on failure the message is the
fixed text around the Go-`%q`-quoted form of an offending header's key — so it
contains the key itself whenever quoting escapes none of its characters — and
the message never contains any offending value. -/
theorem claim_C2_validateHeader_amended (h : Header) :
    (validateHeader h = none ↔
      ∀ kv ∈ h, ∀ v ∈ kv.2, ∀ c ∈ v.data, 32 ≤ c.toNat ∧ c.toNat ≠ 127) ∧
    (∀ m, validateHeader h = some m →
      (∃ kv ∈ h, (∃ v ∈ kv.2, ∃ c ∈ v.data, c.toNat < 32 ∨ c.toNat = 127) ∧
        m = "value for key " ++ goQuote kv.1 ++ " contains invalid characters") ∧
      (∀ kv ∈ h, ∀ v ∈ kv.2, (∃ c ∈ v.data, c.toNat < 32 ∨ c.toNat = 127) →
        ¬ (v.data <:+: m.data))) := by
  constructor
  · exact validateHeader_none_iff_clean h
  · intro m hm
    rcases validateHeader_eq_some h m hm with ⟨kv, hkv, ⟨v, hv, hbad⟩, hmsg⟩
    constructor
    · exact ⟨kv, hkv, ⟨v, hv, (hasInvalidChar_eq_true_iff v).mp hbad⟩, hmsg⟩
    · intro kv2 hkv2 v2 hv2 hbad2 hinf
      rcases hbad2 with ⟨c, hc, hor⟩
      have hcm : c ∈ m.data := hinf.subset hc
      rw [hmsg] at hcm
      have := validateHeader_msg_clean kv.1 c hcm
      omega

/-- Claim C10: `validateHeader` inspects only header values, never keys: any
header all of whose values consist solely of code points outside [0,31] and
different from 127 passes validation, whatever its keys contain. -/
theorem claim_C10_validator_ignores_keys (h : Header)
    (hvals : ∀ kv ∈ h, ∀ v ∈ kv.2, ∀ c ∈ v.data, 32 ≤ c.toNat ∧ c.toNat ≠ 127) :
    validateHeader h = none :=
  (validateHeader_none_iff_clean h).mpr hvals

/-- Claim C10 at a concrete input: both keys contain a control character or
DEL, every value is clean, and validation succeeds. -/
theorem claim_C10_witness :
    validateHeader [("bad\x00key", ["clean value"]), ("\x7fdel", ["ok", ""])] = none :=
  claim_C10_validator_ignores_keys
    [("bad\x00key", ["clean value"]), ("\x7fdel", ["ok", ""])] (by decide)

/-- Claim C1: on a request built by `NewRequest` from caller headers carrying
no auth keys of their own, a non-empty static token yields exactly the single
`Authorization: PVEAPIToken=...` value and no CSRF header — also when a ticket
is set too; with only a ticket, the single `Authorization: PVEAuthCookie=...`
value comes with the CSRF header; with neither, no auth headers at all. -/
theorem claim_C1_newRequest_auth (s : Session) (h : Header)
    (hAuth : mapLookup h "Authorization" = none)
    (hCsrf : mapLookup h "CSRFPreventionToken" = none) :
    (s.AuthToken ≠ "" →
      mapLookup (newRequestHeader s (some h)) "Authorization"
          = some ["PVEAPIToken=" ++ s.AuthToken] ∧
      mapLookup (newRequestHeader s (some h)) "CSRFPreventionToken" = none) ∧
    (s.AuthToken = "" → s.AuthTicket ≠ "" →
      mapLookup (newRequestHeader s (some h)) "Authorization"
          = some ["PVEAuthCookie=" ++ s.AuthTicket] ∧
      mapLookup (newRequestHeader s (some h)) "CSRFPreventionToken"
          = some [s.CsrfToken]) ∧
    (s.AuthToken = "" → s.AuthTicket = "" →
      mapLookup (newRequestHeader s (some h)) "Authorization" = none ∧
      mapLookup (newRequestHeader s (some h)) "CSRFPreventionToken" = none) := by
  refine ⟨?_, ?_, ?_⟩
  · intro htok
    have hcond : (s.AuthToken != "") = true := bne_iff_ne.mpr htok
    rw [newRequestHeader]
    simp only [hcond, if_true]
    refine ⟨mapLookup_mapSet_self h "Authorization" _, ?_⟩
    rw [mapLookup_mapSet_other h "Authorization" "CSRFPreventionToken" _ (by decide)]
    exact hCsrf
  · intro htok htic
    have hcond : (s.AuthToken != "") = false := by
      rw [htok]
      rfl
    have hcond2 : (s.AuthTicket != "") = true := bne_iff_ne.mpr htic
    rw [newRequestHeader]
    simp only [hcond, hcond2, if_true, if_false, Bool.false_eq_true]
    constructor
    · rw [mapLookup_mapSet_other _ "CSRFPreventionToken" "Authorization" _ (by decide)]
      exact mapLookup_mapSet_self h "Authorization" _
    · exact mapLookup_mapSet_self _ "CSRFPreventionToken" _
  · intro htok htic
    have hcond : (s.AuthToken != "") = false := by
      rw [htok]
      rfl
    have hcond2 : (s.AuthTicket != "") = false := by
      rw [htic]
      rfl
    rw [newRequestHeader]
    simp only [hcond, hcond2, if_false, Bool.false_eq_true]
    exact ⟨hAuth, hCsrf⟩

/-- Claim C1 at a concrete input: both credentials set, caller headers empty —
the token's scheme is attached, the CSRF header is not. -/
theorem claim_C1_witness :
    mapLookup (newRequestHeader ⟨"tick", "csrf", "tok", []⟩ (some [])) "Authorization"
        = some ["PVEAPIToken=" ++ "tok"] ∧
    mapLookup (newRequestHeader ⟨"tick", "csrf", "tok", []⟩ (some [])) "CSRFPreventionToken"
        = none :=
  (claim_C1_newRequest_auth ⟨"tick", "csrf", "tok", []⟩ [] rfl rfl).1 (by decide)

/-- Claim C9: after `Do` merges the session's default headers into the
request, every key bound by the session defaults carries the session's value
(overwriting any caller-set value of that name), and every other key keeps
the caller's value. -/
theorem claim_C9_session_headers_override (reqH : Header) (s : Session) (k : String)
    (hnd : (s.Headers.map Prod.fst).Nodup) :
    (∀ vs, mapLookup s.Headers k = some vs →
      mapLookup (addSessionHeaders reqH s.Headers) k = some vs) ∧
    (mapLookup s.Headers k = none →
      mapLookup (addSessionHeaders reqH s.Headers) k = mapLookup reqH k) := by
  have hmain := mapLookup_addSessionHeaders s.Headers reqH k hnd
  constructor
  · intro vs hvs
    rw [hmain, hvs]
    rfl
  · intro hnone
    rw [hmain, hnone]
    rfl

/-- Claim C9 at a concrete input: the session's `X-A` overwrites the caller's,
the caller's `X-B` survives. -/
theorem claim_C9_witness :
    mapLookup (addSessionHeaders [("X-A", ["caller"]), ("X-B", ["kept"])]
        (Session.mk "" "" "" [("X-A", ["session"])]).Headers) "X-A" = some ["session"] ∧
    mapLookup (addSessionHeaders [("X-A", ["caller"]), ("X-B", ["kept"])]
        (Session.mk "" "" "" [("X-A", ["session"])]).Headers) "X-B" = some ["kept"] :=
  ⟨(claim_C9_session_headers_override [("X-A", ["caller"]), ("X-B", ["kept"])]
      (Session.mk "" "" "" [("X-A", ["session"])]) "X-A" (by decide)).1
      ["session"] (by decide),
   ((claim_C9_session_headers_override [("X-A", ["caller"]), ("X-B", ["kept"])]
      (Session.mk "" "" "" [("X-A", ["session"])]) "X-B" (by decide)).2
      (by decide)).trans (by decide)⟩

/-- Claim C3: whatever the initial value of the process-wide Debug flag and
whatever the outcome of the call — transport error, nil response, the
login-specific failures, success, or the reachable panics — the flag is false
while the credential-bearing `Post` runs and equals its initial value again
when `Login` ends, because the restore at `session.go:203` precedes every
return path and every reachable panic. -/
theorem claim_C3_login_debug_restore (debug0 : Bool) (s : Session) (pr : PostResult) :
    (LoginModel debug0 s pr).debugDuringPost = false ∧
    (LoginModel debug0 s pr).debugFinal = debug0 := by
  cases pr <;> exact ⟨rfl, rfl⟩

/-- Claim C4, the code at the failing input: a 2xx login response with body
`{"data":{}}` — the expected `ticket`/`CSRFPreventionToken` fields absent —
does not produce the malformed-login-response error the spec promises; the
unchecked type assertion `dat["ticket"].(string)` panics on the nil
interface.  (The session's AuthTicket/CsrfToken are indeed left unset, and
Debug is already restored, but `Login` crashes instead of returning an
error.) -/
theorem claim_C4_login_missing_fields_panics :
    LoginModel true (Session.mk "" "" "" [])
        (PostResult.resp (RespBodyM.obj [("data", JValue.obj [])]))
      = ⟨false, true, Session.mk "" "" "" [], LoginOutcome.panicked⟩ := rfl

/-- Claim C5, counterexample: on the body `{"data":{}}` (no `result` member)
the typed decode does fail hard, but through the inner result-decode error —
`json.Unmarshal` of the nil `RawMessage` fails with "unexpected end of JSON
input" wrapped as "error unmarshalling result ..." — not through the
envelope-shape error the claim names. -/
theorem claim_C5_counterexample :
    TypedResponseX (some (JValue.obj [("data", JValue.obj [])]))
      = Except.error
          (DecodeErr.result "error unmarshalling result unexpected end of JSON input") ∧
    isEnvelopeErr (TypedResponseX (some (JValue.obj [("data", JValue.obj [])]))) = false :=
  ⟨rfl, rfl⟩

/-- Claim C5 (amended): the typed decoder extracts exactly the `data.result`
subtree (`{"data":{"result":{"x":1}}}` against `{X int}` yields `X = 1`); on
`{"data":{}}` it fails hard — never a silent zero value — but with the
result-decode error ("error unmarshalling result unexpected end of JSON
input"), not the envelope error, which is reserved for bodies whose outer
shape does not fit the envelope struct (e.g. a non-object body). -/
theorem claim_C5_typed_decode_amended :
    (∀ r, envelopeResult (some (JValue.obj [("data", JValue.obj [("result", r)])]))
        = Except.ok (some r)) ∧
    TypedResponseX (some (JValue.obj [("data", JValue.obj [("result",
        JValue.obj [("x", JValue.num 1)])])])) = Except.ok 1 ∧
    (∀ z, TypedResponseX (some (JValue.obj [("data", JValue.obj [])])) ≠ Except.ok z) ∧
    TypedResponseX (some (JValue.obj [("data", JValue.obj [])]))
      = Except.error
          (DecodeErr.result "error unmarshalling result unexpected end of JSON input") ∧
    isEnvelopeErr (TypedResponseX (some (JValue.num 5))) = true := by
  refine ⟨fun r => rfl, rfl, ?_, rfl, rfl⟩
  intro z he
  rw [show TypedResponseX (some (JValue.obj [("data", JValue.obj [])]))
      = Except.error
          (DecodeErr.result "error unmarshalling result unexpected end of JSON input")
    from rfl] at he
  exact Except.noConfusion he

/-- Claim C7, counterexample: the body `Do` returns is a buffered reader that
stays at EOF, so reading it to completion a second time yields no bytes — not
the same bytes as the first complete read (here, wire bytes `[7]`). -/
theorem claim_C7_counterexample :
    (bodyReadAll (bodyReadAll (doBufferBody [7]).body).2).1
      ≠ (bodyReadAll (doBufferBody [7]).body).1 := by
  decide

/-- Claim C7 (amended): after `Do`, the body is fully buffered in memory from
the single network drain; the first complete read yields exactly the original
body bytes, and any further read completes immediately with no bytes — the
buffer itself is retained untouched and no read ever involves the network. -/
theorem claim_C7_body_buffering_amended (wire : List Nat) :
    (doBufferBody wire).networkReads = 1 ∧
    (doBufferBody wire).body = ⟨wire, 0⟩ ∧
    (bodyReadAll (doBufferBody wire).body).1 = wire ∧
    (bodyReadAll (bodyReadAll (doBufferBody wire).body).2).1 = [] ∧
    (bodyReadAll (bodyReadAll (doBufferBody wire).body).2).2.buf = wire := by
  refine ⟨rfl, rfl, rfl, ?_, rfl⟩
  exact List.drop_length wire

/-- Claim C8, counterexample: a `Session` built around a caller-supplied HTTP
client dispatches a request whose headers fail validation straight to the
underlying transport with no error from this layer — `NewSession` only wraps
the transport it builds itself, so the claim's "however the Session was
constructed, including with a caller-supplied HTTP client" is false. -/
theorem claim_C8_counterexample :
    roundTrip (newSessionClient (some GoHttpClient.custom)) [("Authorization", ["\x00"])]
      = ⟨true, none⟩ ∧
    validateHeader [("Authorization", ["\x00"])] ≠ none := by
  constructor
  · rfl
  · decide

/-- Claim C8 (amended): for a `Session` constructed without a caller-supplied
client, the secure transport validates the headers before any dispatch: the
request reaches the underlying transport exactly when validation succeeds,
and a validation failure is returned (wrapped as "invalid header: ...")
instead of dispatching. -/
theorem claim_C8_validator_before_dispatch_amended (h : Header) :
    ((roundTrip (newSessionClient none) h).sentToUnderlying = true ↔
      validateHeader h = none) ∧
    ((roundTrip (newSessionClient none) h).errMsg = none ↔ validateHeader h = none) ∧
    (∀ e, validateHeader h = some e →
      roundTrip (newSessionClient none) h = ⟨false, some ("invalid header: " ++ e)⟩) := by
  cases hv : validateHeader h with
  | none =>
    refine ⟨by simp [roundTrip, newSessionClient, hv], by simp [roundTrip, newSessionClient, hv], ?_⟩
    intro e he
    exact Option.noConfusion he
  | some e0 =>
    refine ⟨by simp [roundTrip, newSessionClient, hv], by simp [roundTrip, newSessionClient, hv], ?_⟩
    intro e he
    cases Option.some.inj he
    simp [roundTrip, newSessionClient, hv]

theorem option_or_none {α : Type} (x : Option α) : x.or none = x := by
  cases x <;> rfl

theorem mapLookup_cons_head {α : Type} (k : String) (v : α) (t : List (String × α)) :
    mapLookup ((k, v) :: t) k = some v := by
  simp [mapLookup, List.find?_cons]

theorem spec_cons_kept (a : List String) (e : Bool) (kv0 : String × ParamValue)
    (t : List (String × ParamValue))
    (hp : (e || (paramString kv0.2 != "" || a.contains kv0.1)) = true) :
    specParamsEncode (kv0 :: t) a e =
      (kv0.1, paramString kv0.2) :: specParamsEncode t a e := by
  rw [specParamsEncode, specParamsEncode, List.filter_cons, if_pos hp, List.map_cons]

theorem spec_cons_dropped (a : List String) (e : Bool) (kv0 : String × ParamValue)
    (t : List (String × ParamValue))
    (hp : ¬ (e || (paramString kv0.2 != "" || a.contains kv0.1)) = true) :
    specParamsEncode (kv0 :: t) a e = specParamsEncode t a e := by
  rw [specParamsEncode, specParamsEncode, List.filter_cons, if_neg hp]

theorem spec_lookup_none (a : List String) (e : Bool) (t : List (String × ParamValue))
    (k : String) (hk : k ∉ t.map Prod.fst) :
    mapLookup (specParamsEncode t a e) k = none := by
  apply mapLookup_eq_none_of_not_mem
  intro hmem
  apply hk
  rw [specParamsEncode] at hmem
  have hmem2 : k ∈ (t.filter
      (fun kv => e || (paramString kv.2 != "" || a.contains kv.1))).map Prod.fst := by
    simpa [List.map_map, Function.comp] using hmem
  rcases List.mem_map.mp hmem2 with ⟨kv, hkvf, hfst⟩
  exact hfst ▸ List.mem_map_of_mem Prod.fst (List.mem_of_mem_filter hkvf)

/-- Looking a key up in the encoder's fold, accumulator generalized: the fold
produces exactly the reference encoder's bindings, falling back to the
accumulator for keys the encoder dropped or never saw. -/
theorem p2v_foldl_or (a : List String) (e : Bool) :
    ∀ (p : List (String × ParamValue)) (acc : List (String × String)) (k : String),
      (p.map Prod.fst).Nodup →
      mapLookup (p.foldl
        (fun vals kv =>
          let v := paramString kv.2
          if e then mapSet vals kv.1 v
          else if v != "" || inArray a kv.1 then mapSet vals kv.1 v
          else vals) acc) k =
      (mapLookup (specParamsEncode p a e) k).or (mapLookup acc k) := by
  intro p
  induction p with
  | nil =>
    intro acc k _
    rfl
  | cons kv0 t ih =>
    intro acc k hnd
    have hnotin : kv0.1 ∉ t.map Prod.fst := (List.nodup_cons.mp hnd).1
    have hnd2 : (t.map Prod.fst).Nodup := (List.nodup_cons.mp hnd).2
    rw [List.foldl_cons, ih _ k hnd2]
    by_cases hk : kv0.1 = k
    · subst hk
      rw [spec_lookup_none a e t kv0.1 hnotin]
      by_cases hp : (e || (paramString kv0.2 != "" || a.contains kv0.1)) = true
      · rw [spec_cons_kept a e kv0 t hp, mapLookup_cons_head]
        have hf : mapLookup ((fun vals (kv : String × ParamValue) =>
            let v := paramString kv.2
            if e then mapSet vals kv.1 v
            else if v != "" || inArray a kv.1 then mapSet vals kv.1 v
            else vals) acc kv0) kv0.1 = some (paramString kv0.2) := by
          cases e
          · have hc : (paramString kv0.2 != "" || inArray a kv0.1) = true := by
              simpa [inArray] using hp
            simp [hc, mapLookup_mapSet_self]
          · simp [mapLookup_mapSet_self]
        rw [hf]
        rfl
      · rw [spec_cons_dropped a e kv0 t hp]
        rw [spec_lookup_none a e t kv0.1 hnotin]
        have hf : mapLookup ((fun vals (kv : String × ParamValue) =>
            let v := paramString kv.2
            if e then mapSet vals kv.1 v
            else if v != "" || inArray a kv.1 then mapSet vals kv.1 v
            else vals) acc kv0) kv0.1 = mapLookup acc kv0.1 := by
          cases e
          · have hc : ¬ (paramString kv0.2 != "" || inArray a kv0.1) = true := by
              intro hc2
              exact hp (by simpa [inArray] using hc2)
            simp [hc]
          · exact absurd (by simp) hp
        rw [hf]
    · have hf : mapLookup ((fun vals (kv : String × ParamValue) =>
          let v := paramString kv.2
          if e then mapSet vals kv.1 v
          else if v != "" || inArray a kv.1 then mapSet vals kv.1 v
          else vals) acc kv0) k = mapLookup acc k := by
        have hset := mapLookup_mapSet_other acc kv0.1 k (paramString kv0.2)
          (fun e2 => hk e2.symm)
        cases e
        · by_cases hc : (paramString kv0.2 != "" || inArray a kv0.1) = true
          · simp [hc, hset]
          · simp [hc]
        · simp [hset]
      rw [hf]
      by_cases hp : (e || (paramString kv0.2 != "" || a.contains kv0.1)) = true
      · rw [spec_cons_kept a e kv0 t hp,
          mapLookup_cons_ne (kv0.1, paramString kv0.2) _ k hk]
      · rw [spec_cons_dropped a e kv0 t hp]

/-- Claim C6: the source encoder agrees, key for key, with the reference
encoder written from the claim's words — booleans encode as `"1"`/`"0"` and
everything else by its default string form; in default mode a key whose
encoded value is empty is absent unless allow-listed; in allow-all-empty mode
every key is kept. -/
theorem claim_C6_params_encoder_matches_spec (params : List (String × ParamValue))
    (allowedEmpty : List String) (allowEmpty : Bool)
    (hnd : (params.map Prod.fst).Nodup) :
    (∀ b, paramString (ParamValue.bool b) = if b then "1" else "0") ∧
    ∀ k, mapLookup (ParamsToValuesWithAllEmpty params allowedEmpty allowEmpty) k =
      mapLookup (specParamsEncode params allowedEmpty allowEmpty) k := by
  refine ⟨fun b => by cases b <;> rfl, fun k => ?_⟩
  rw [ParamsToValuesWithAllEmpty,
    p2v_foldl_or allowedEmpty allowEmpty params [] k hnd]
  exact option_or_none _

/-- Claim C6 at a concrete input: a boolean encodes as "1" and an empty,
non-allow-listed string is dropped, in both encoders alike. -/
theorem claim_C6_witness :
    (([("flag", ParamValue.bool true), ("name", ParamValue.str "")].map Prod.fst).Nodup) ∧
    (∀ k, mapLookup (ParamsToValuesWithAllEmpty
        [("flag", ParamValue.bool true), ("name", ParamValue.str "")] [] false) k =
      mapLookup (specParamsEncode
        [("flag", ParamValue.bool true), ("name", ParamValue.str "")] [] false) k) :=
  ⟨by decide,
   (claim_C6_params_encoder_matches_spec
     [("flag", ParamValue.bool true), ("name", ParamValue.str "")] [] false (by decide)).2⟩

end Proxmox
